import Mathlib

/-!
Verification of `city_dems` (`src/lib.py`) against its specification.

The repository is a single function `retrieve_dem(params, timeout)` that
validates a parameter mapping, serializes it with `urllib.parse.urlencode`
into a query string appended to a fixed base endpoint, performs an HTTP GET,
and returns the response bytes or raises a classified error.

Modelling decisions:
* Strings are modelled at the byte level as `List Nat` (the UTF-8 bytes),
  matching what `urlencode` / `quote_plus` actually operate on.  Values of
  the parameter mapping are modelled as the bytes of their `str()`
  serialization, since `urlencode` applies `str` before quoting.
* A Python `dict` preserves insertion order and `urlencode` iterates it in
  that order, so the mapping is modelled as an ordered association list.
* The network is modelled as an explicit transport function from the request
  URL to an outcome (`success body` for a non-error HTTP response,
  `httpError code reason` for `urllib.error.HTTPError`, `urlError reason`
  for `urllib.error.URLError`, which covers DNS failure, refused
  connections, TLS failure and timeout expiry).  `retrieve_dem` additionally
  returns the number of transport invocations, so "no network I/O" is the
  second component being `0`.
-/

namespace CityDems

abbrev ByteStr := List Nat

abbrev Params := List (ByteStr × ByteStr)

/-- The UTF-8 bytes of a string; for the ASCII literals appearing in
`lib.py` this is exactly the byte sequence Python works with. -/
def ascii (s : String) : ByteStr := s.data.map Char.toNat

/-- All bytes of a byte string are in range (a real byte string). -/
def validBytes (s : ByteStr) : Prop := ∀ b ∈ s, b < 256

/-- All keys and values of a parameter mapping are real byte strings. -/
def validParams (ps : Params) : Prop := ∀ kv ∈ ps, validBytes kv.1 ∧ validBytes kv.2

instance (s : ByteStr) : Decidable (validBytes s) := by
  unfold validBytes
  infer_instance

instance (ps : Params) : Decidable (validParams ps) := by
  unfold validParams
  infer_instance

/-! ### `urllib.parse.quote_plus` and its inverse

`urlencode` quotes each key and value with `quote_plus`: ASCII
alphanumerics and `_.-~` are kept, a space becomes `+`, and every other
byte becomes `%XX` with uppercase hex digits. -/

/-- The always-safe bytes of `urllib.parse.quote`: ASCII alphanumerics and
`_`, `.`, `-`, `~`. -/
def isSafeByte (b : Nat) : Bool :=
  (48 ≤ b && b ≤ 57) || (65 ≤ b && b ≤ 90) || (97 ≤ b && b ≤ 122) ||
  b == 95 || b == 46 || b == 45 || b == 126

/-- Uppercase hex digit byte for a nibble. -/
def hexDigit (d : Nat) : Nat := if d < 10 then 48 + d else 55 + d

def isHexDigit (b : Nat) : Bool :=
  (48 ≤ b && b ≤ 57) || (65 ≤ b && b ≤ 70) || (97 ≤ b && b ≤ 102)

def hexVal (b : Nat) : Nat :=
  if b ≤ 57 then b - 48 else if b ≤ 70 then b - 55 else b - 87

/-- `quote_plus` on a single byte. -/
def encodeByte (b : Nat) : ByteStr :=
  if isSafeByte b then [b]
  else if b = 32 then [43]
  else [37, hexDigit (b / 16), hexDigit (b % 16)]

/-- `urllib.parse.quote_plus` at the byte level. -/
def quotePlus : ByteStr → ByteStr
  | [] => []
  | b :: rest => encodeByte b ++ quotePlus rest

/-- Fuelled worker for `unquote_plus`; one unit of fuel is spent per
decoding step, and the fuel never runs out when it starts at the length of
the input (`unquotePlusAux_stable`). -/
def unquotePlusAux : Nat → ByteStr → ByteStr
  | _, [] => []
  | 0, s => s
  | fuel + 1, b :: rest =>
    if b = 43 then 32 :: unquotePlusAux fuel rest
    else if b = 37 then
      match rest with
      | h1 :: h2 :: rest2 =>
        if isHexDigit h1 && isHexDigit h2 then
          (hexVal h1 * 16 + hexVal h2) :: unquotePlusAux fuel rest2
        else 37 :: unquotePlusAux fuel (h1 :: h2 :: rest2)
      | _ => 37 :: unquotePlusAux fuel rest
    else b :: unquotePlusAux fuel rest

/-- `urllib.parse.unquote_plus` at the byte level: `+` becomes a space, a
`%` followed by two hex digits becomes the denoted byte, everything else is
kept literally. -/
def unquotePlus (s : ByteStr) : ByteStr := unquotePlusAux s.length s

/-! ### `urllib.parse.urlencode` and query-string decoding -/

/-- One `key=value` item of the query string. -/
def encodePair (kv : ByteStr × ByteStr) : ByteStr :=
  quotePlus kv.1 ++ 61 :: quotePlus kv.2

/-- `urllib.parse.urlencode(params)`: the items joined by `&` (byte 38), in
the mapping's insertion order. -/
def urlencode : Params → ByteStr
  | [] => []
  | [kv] => encodePair kv
  | kv :: rest => encodePair kv ++ 38 :: urlencode rest

/-- Split a query string at each `&` (byte 38). -/
def splitAmp : ByteStr → List ByteStr
  | [] => [[]]
  | b :: rest =>
    if b = 38 then [] :: splitAmp rest
    else
      match splitAmp rest with
      | [] => [[b]]
      | a :: as => (b :: a) :: as

/-- Split a field at its first `=` (byte 61). -/
def splitEq : ByteStr → ByteStr × ByteStr
  | [] => ([], [])
  | b :: rest =>
    if b = 61 then ([], rest)
    else ((b :: (splitEq rest).1), (splitEq rest).2)

/-- Decode one `key=value` field. -/
def decodeField (fld : ByteStr) : ByteStr × ByteStr :=
  (unquotePlus (splitEq fld).1, unquotePlus (splitEq fld).2)

/-- Standard decoding of a query string back into key/value pairs. -/
def decodeQuery (s : ByteStr) : Params := (splitAmp s).map decodeField

/-! ### The DEM retriever (`retrieve_dem` of `src/lib.py`) -/

/-- Outcome of the transport layer (`urllib.request.urlopen`) for one
request: a non-error response body, an `HTTPError` with status code and
reason, or a `URLError` (DNS failure, connection refused, timeout expiry,
TLS failure) with a reason. -/
inductive HttpResult where
  | success (body : ByteStr)
  | httpError (code : Nat) (reason : ByteStr)
  | urlError (reason : ByteStr)
  deriving DecidableEq

/-- The errors `retrieve_dem` raises: `ValueError` for missing parameters
(the spec's `ValidationError`), the re-raised `HTTPError` carrying the url,
status code and formatted message (the spec's `RemoteError`), and the
re-raised `URLError` carrying the formatted reason (the spec's
`NetworkError`). -/
inductive DemError where
  | valueError (msg : ByteStr)
  | httpError (url : ByteStr) (code : Nat) (msg : ByteStr)
  | urlError (msg : ByteStr)
  deriving DecidableEq

def required_params : List ByteStr :=
  [ascii "demtype", ascii "south", ascii "north", ascii "west", ascii "east",
   ascii "outputFormat", ascii "API_Key"]

def paramKeys (ps : Params) : List ByteStr := ps.map Prod.fst

/-- `[param for param in required_params if param not in params]` -/
def missing_params (ps : Params) : List ByteStr :=
  required_params.filter (fun p => decide (p ∉ paramKeys ps))

def base_url : ByteStr := ascii "https://portal.opentopography.org/API/globaldem"

/-- `f"{base_url}?{query_string}"` (63 is `?`). -/
def buildUrl (ps : Params) : ByteStr := base_url ++ 63 :: urlencode ps

/-- `f"Missing required parameters: {', '.join(missing_params)}"` -/
def missingMessage (missing : List ByteStr) : ByteStr :=
  ascii "Missing required parameters: " ++ List.intercalate (ascii ", ") missing

/-- `f"HTTP error {e.code}: {e.reason}"` -/
def httpErrorMessage (code : Nat) (reason : ByteStr) : ByteStr :=
  ascii "HTTP error " ++ ascii (toString code) ++ ascii ": " ++ reason

/-- `f"Network error: {e.reason}"` -/
def networkErrorMessage (reason : ByteStr) : ByteStr :=
  ascii "Network error: " ++ reason

/-- `retrieve_dem` of `src/lib.py` over an explicit transport.  Returns the
result together with the number of transport invocations. -/
def retrieve_dem (params : Params) (transport : ByteStr → HttpResult) :
    Except DemError ByteStr × Nat :=
  if missing_params params ≠ [] then
    (.error (.valueError (missingMessage (missing_params params))), 0)
  else
    match transport (buildUrl params) with
    | .success body => (.ok body, 1)
    | .httpError code reason =>
        (.error (.httpError (buildUrl params) code (httpErrorMessage code reason)), 1)
    | .urlError reason =>
        (.error (.urlError (networkErrorMessage reason)), 1)

/-- The spec's example parameter mapping, in the order it is written. -/
def exampleParams : Params :=
  [(ascii "demtype", ascii "SRTMGL3"),
   (ascii "south", ascii "-25.451567"),
   (ascii "north", ascii "-25.418431"),
   (ascii "west", ascii "-49.308291"),
   (ascii "east", ascii "-49.235979"),
   (ascii "outputFormat", ascii "GTiff"),
   (ascii "API_Key", ascii "demoapikeyot2022")]

/-- The spec's example mapping with an extra, non-required key appended. -/
def exampleParamsExtra : Params :=
  exampleParams ++ [(ascii "extra", ascii "1")]

/-- A mapping providing only two of the required keys, deliberately listed
in the opposite of the canonical required order. -/
def partialParams : Params :=
  [(ascii "west", ascii "-49.308291"), (ascii "demtype", ascii "SRTMGL3")]

/-- The spec's example mapping with every value replaced by a different
string: same keys, different values. -/
def exampleParamsAltVals : Params :=
  [(ascii "demtype", ascii "COP30"),
   (ascii "south", ascii "0"),
   (ascii "north", ascii "1"),
   (ascii "west", ascii "2"),
   (ascii "east", ascii "3"),
   (ascii "outputFormat", ascii "AAIGrid"),
   (ascii "API_Key", ascii "otherkey")]

/-! ### Lemmas: the fuelled decoder is fuel-independent -/

theorem unquotePlusAux_nil (fuel : Nat) : unquotePlusAux fuel [] = [] := by
  cases fuel <;> rfl

theorem unquotePlusAux_step (fuel : Nat) (b : Nat) (rest : ByteStr) :
    unquotePlusAux (fuel + 1) (b :: rest) =
      if b = 43 then 32 :: unquotePlusAux fuel rest
      else if b = 37 then
        match rest with
        | h1 :: h2 :: rest2 =>
          if isHexDigit h1 && isHexDigit h2 then
            (hexVal h1 * 16 + hexVal h2) :: unquotePlusAux fuel rest2
          else 37 :: unquotePlusAux fuel (h1 :: h2 :: rest2)
        | _ => 37 :: unquotePlusAux fuel rest
      else b :: unquotePlusAux fuel rest := rfl

theorem unquotePlusAux_stable :
    ∀ fuel (l : ByteStr), l.length ≤ fuel → unquotePlusAux fuel l = unquotePlus l := by
  intro fuel
  induction fuel using Nat.strong_induction_on with
  | _ fuel IH =>
    intro l hl
    match l with
    | [] => rw [unquotePlusAux_nil]; rfl
    | b :: rest =>
      obtain ⟨f, rfl⟩ : ∃ f, fuel = f + 1 := by
        cases fuel
        · simp at hl
        · exact ⟨_, rfl⟩
      have hrest : rest.length ≤ f := by simpa using hl
      show _ = unquotePlusAux (b :: rest).length (b :: rest)
      simp only [List.length_cons]
      rw [unquotePlusAux_step, unquotePlusAux_step]
      by_cases h43 : b = 43
      · simp only [if_pos h43]
        rw [IH f (by omega) rest hrest]
        rfl
      · by_cases h37 : b = 37
        · simp only [if_neg h43, if_pos h37]
          match rest with
          | [] => simp only [unquotePlusAux_nil]
          | [x] =>
            simp only
            rw [IH f (by omega) [x] (by simpa using hrest)]
            rfl
          | h1 :: h2 :: rest2 =>
            simp only
            by_cases hh : isHexDigit h1 && isHexDigit h2
            · simp only [if_pos hh]
              have h2f : rest2.length ≤ f := by
                simp only [List.length_cons] at hrest; omega
              rw [IH f (by omega) rest2 h2f]
              have h2r : rest2.length ≤ (h1 :: h2 :: rest2).length := by
                simp; omega
              rw [IH (h1 :: h2 :: rest2).length (by omega) rest2 h2r]
            · simp only [if_neg hh]
              rw [IH f (by omega) (h1 :: h2 :: rest2) hrest]
              rfl
        · simp only [if_neg h43, if_neg h37]
          rw [IH f (by omega) rest hrest]
          rfl

/-! ### Step equations for `unquotePlus` -/

theorem unquotePlus_nil : unquotePlus [] = [] := rfl

theorem unquotePlus_cons_plus (l : ByteStr) :
    unquotePlus (43 :: l) = 32 :: unquotePlus l := by
  show unquotePlusAux (l.length + 1) (43 :: l) = _
  rw [unquotePlusAux_step, if_pos rfl]
  rfl

theorem unquotePlus_cons_other (b : Nat) (l : ByteStr) (h43 : b ≠ 43) (h37 : b ≠ 37) :
    unquotePlus (b :: l) = b :: unquotePlus l := by
  show unquotePlusAux (l.length + 1) (b :: l) = _
  rw [unquotePlusAux_step, if_neg h43, if_neg h37]
  rfl

theorem unquotePlus_percent (h1 h2 : Nat) (l : ByteStr)
    (hh : (isHexDigit h1 && isHexDigit h2) = true) :
    unquotePlus (37 :: h1 :: h2 :: l) =
      (hexVal h1 * 16 + hexVal h2) :: unquotePlus l := by
  show unquotePlusAux (l.length + 1 + 1 + 1) (37 :: h1 :: h2 :: l) = _
  rw [unquotePlusAux_step, if_neg (by omega), if_pos rfl]
  simp only [if_pos hh]
  rw [unquotePlusAux_stable (l.length + 1 + 1) l (by omega)]

/-! ### `unquote_plus` inverts `quote_plus` -/

theorem hexVal_hexDigit (d : Nat) (hd : d < 16) : hexVal (hexDigit d) = d := by
  interval_cases d <;> decide

theorem isHexDigit_hexDigit (d : Nat) (hd : d < 16) : isHexDigit (hexDigit d) = true := by
  interval_cases d <;> decide

theorem hexDigit_ne (d : Nat) : hexDigit d ≠ 61 ∧ hexDigit d ≠ 38 := by
  unfold hexDigit
  split <;> omega

theorem isSafeByte_bounds (b : Nat) (hs : isSafeByte b = true) :
    b ≠ 61 ∧ b ≠ 38 ∧ b ≠ 43 ∧ b ≠ 37 := by
  simp only [isSafeByte, Bool.or_eq_true, Bool.and_eq_true, decide_eq_true_eq,
    beq_iff_eq] at hs
  omega

theorem unquotePlus_encodeByte (b : Nat) (hb : b < 256) (l : ByteStr) :
    unquotePlus (encodeByte b ++ l) = b :: unquotePlus l := by
  unfold encodeByte
  by_cases hs : isSafeByte b
  · obtain ⟨-, -, h43, h37⟩ := isSafeByte_bounds b hs
    simp only [if_pos hs, List.cons_append, List.nil_append]
    exact unquotePlus_cons_other b l h43 h37
  · by_cases h32 : b = 32
    · subst h32
      simp only [hs, if_neg, Bool.false_eq_true, not_false_eq_true, if_pos,
        List.cons_append, List.nil_append, if_true]
      exact unquotePlus_cons_plus l
    · simp only [hs, Bool.false_eq_true, not_false_eq_true, if_neg, h32,
        List.cons_append, List.nil_append]
      have hdiv : b / 16 < 16 := by omega
      have hmod : b % 16 < 16 := by omega
      rw [unquotePlus_percent _ _ _ (by
        rw [isHexDigit_hexDigit _ hdiv, isHexDigit_hexDigit _ hmod]; rfl)]
      rw [hexVal_hexDigit _ hdiv, hexVal_hexDigit _ hmod]
      congr 1
      omega

theorem mem_encodeByte_ne (b x : Nat) (hx : x ∈ encodeByte b) : x ≠ 61 ∧ x ≠ 38 := by
  unfold encodeByte at hx
  by_cases hs : isSafeByte b
  · simp only [if_pos hs, List.mem_singleton] at hx
    subst hx
    obtain ⟨h1, h2, -, -⟩ := isSafeByte_bounds _ hs
    exact ⟨h1, h2⟩
  · by_cases h32 : b = 32
    · rw [if_neg hs, if_pos h32] at hx
      simp only [List.mem_singleton] at hx
      omega
    · rw [if_neg hs, if_neg h32] at hx
      simp only [List.mem_cons, List.not_mem_nil, or_false] at hx
      rcases hx with rfl | rfl | rfl
      · omega
      · exact hexDigit_ne _
      · exact hexDigit_ne _

theorem mem_quotePlus_ne (s : ByteStr) (x : Nat) (hx : x ∈ quotePlus s) :
    x ≠ 61 ∧ x ≠ 38 := by
  induction s with
  | nil => simp [quotePlus] at hx
  | cons b rest ih =>
    simp only [quotePlus, List.mem_append] at hx
    rcases hx with hx | hx
    · exact mem_encodeByte_ne b x hx
    · exact ih hx

theorem unquotePlus_quotePlus_append (s : ByteStr) (hs : validBytes s) (l : ByteStr) :
    unquotePlus (quotePlus s ++ l) = s ++ unquotePlus l := by
  induction s with
  | nil => simp [quotePlus]
  | cons b rest ih =>
    have hb : b < 256 := hs b (List.mem_cons_self b rest)
    have hrest : validBytes rest := fun x hx => hs x (List.mem_cons_of_mem b hx)
    simp only [quotePlus, List.append_assoc]
    rw [unquotePlus_encodeByte b hb, ih hrest]
    rfl

theorem unquotePlus_quotePlus (s : ByteStr) (hs : validBytes s) :
    unquotePlus (quotePlus s) = s := by
  have := unquotePlus_quotePlus_append s hs []
  simpa [unquotePlus_nil] using this

/-! ### Decoding a query string built by `urlencode` -/

theorem splitEq_append (k v : ByteStr) (hk : ∀ x ∈ k, x ≠ 61) :
    splitEq (k ++ 61 :: v) = (k, v) := by
  induction k with
  | nil => simp [splitEq]
  | cons b rest ih =>
    have hb : b ≠ 61 := hk b (List.mem_cons_self b rest)
    have hrest : ∀ x ∈ rest, x ≠ 61 := fun x hx => hk x (List.mem_cons_of_mem b hx)
    simp only [List.cons_append, splitEq, if_neg hb, List.append_eq, ih hrest]

theorem decodeField_encodePair (kv : ByteStr × ByteStr)
    (hk : validBytes kv.1) (hv : validBytes kv.2) :
    decodeField (encodePair kv) = kv := by
  unfold decodeField encodePair
  rw [splitEq_append _ _ (fun x hx => (mem_quotePlus_ne kv.1 x hx).1)]
  simp only
  rw [unquotePlus_quotePlus _ hk, unquotePlus_quotePlus _ hv]

theorem splitAmp_ne_nil (s : ByteStr) : splitAmp s ≠ [] := by
  induction s with
  | nil => simp [splitAmp]
  | cons b rest ih =>
    simp only [splitAmp]
    split
    · simp
    · match h : splitAmp rest with
      | [] => exact absurd h ih
      | a :: as => simp

theorem splitAmp_nosep (c : ByteStr) (hc : ∀ x ∈ c, x ≠ 38) : splitAmp c = [c] := by
  induction c with
  | nil => rfl
  | cons b rest ih =>
    have hb : b ≠ 38 := hc b (List.mem_cons_self b rest)
    have hrest : ∀ x ∈ rest, x ≠ 38 := fun x hx => hc x (List.mem_cons_of_mem b hx)
    simp only [splitAmp, if_neg hb, ih hrest]

theorem splitAmp_chunk (c t : ByteStr) (hc : ∀ x ∈ c, x ≠ 38) :
    splitAmp (c ++ 38 :: t) = c :: splitAmp t := by
  induction c with
  | nil => simp [splitAmp]
  | cons b rest ih =>
    have hb : b ≠ 38 := hc b (List.mem_cons_self b rest)
    have hrest : ∀ x ∈ rest, x ≠ 38 := fun x hx => hc x (List.mem_cons_of_mem b hx)
    simp only [List.cons_append, splitAmp, if_neg hb, List.append_eq, ih hrest]

theorem mem_encodePair_ne (kv : ByteStr × ByteStr) (x : Nat)
    (hx : x ∈ encodePair kv) : x ≠ 38 := by
  unfold encodePair at hx
  simp only [List.mem_append, List.mem_cons] at hx
  rcases hx with hx | hx | hx
  · exact (mem_quotePlus_ne _ x hx).2
  · omega
  · exact (mem_quotePlus_ne _ x hx).2

theorem splitAmp_urlencode (ps : Params) (hne : ps ≠ []) :
    splitAmp (urlencode ps) = ps.map encodePair := by
  induction ps with
  | nil => exact absurd rfl hne
  | cons kv rest ih =>
    match rest with
    | [] => exact splitAmp_nosep _ (mem_encodePair_ne kv)
    | kv2 :: rest2 =>
      show splitAmp (encodePair kv ++ 38 :: urlencode (kv2 :: rest2)) = _
      rw [splitAmp_chunk _ _ (mem_encodePair_ne kv), ih (by simp)]
      rfl

/-- Round trip of the query string: decoding what `urlencode` produced
gives back exactly the association list it was built from. -/
theorem decodeQuery_urlencode (ps : Params) (hne : ps ≠ []) (hv : validParams ps) :
    decodeQuery (urlencode ps) = ps := by
  unfold decodeQuery
  rw [splitAmp_urlencode ps hne, List.map_map]
  have : ∀ kv ∈ ps, (decodeField ∘ encodePair) kv = id kv := by
    intro kv hkv
    obtain ⟨hk, hvv⟩ := hv kv hkv
    simp only [Function.comp_apply, id_eq]
    exact decodeField_encodePair kv hk hvv
  rw [List.map_congr_left this, List.map_id]

/-! ### Lemmas about validation and the branches of `retrieve_dem` -/

theorem missing_params_ne_nil_iff (ps : Params) :
    missing_params ps ≠ [] ↔ ∃ k ∈ required_params, k ∉ paramKeys ps := by
  unfold missing_params
  rw [Ne, List.filter_eq_nil_iff]
  push_neg
  simp only [decide_eq_true_eq]

theorem ne_nil_of_no_missing (ps : Params) (h : missing_params ps = []) : ps ≠ [] := by
  intro hps
  subst hps
  exact absurd h (by decide)

theorem retrieve_dem_missing (ps : Params) (t : ByteStr → HttpResult)
    (h : missing_params ps ≠ []) :
    retrieve_dem ps t =
      (.error (.valueError (missingMessage (missing_params ps))), 0) := by
  unfold retrieve_dem
  rw [if_pos h]

theorem retrieve_dem_present (ps : Params) (t : ByteStr → HttpResult)
    (h : missing_params ps = []) :
    retrieve_dem ps t =
      match t (buildUrl ps) with
      | .success body => (.ok body, 1)
      | .httpError code reason =>
          (.error (.httpError (buildUrl ps) code (httpErrorMessage code reason)), 1)
      | .urlError reason =>
          (.error (.urlError (networkErrorMessage reason)), 1) := by
  unfold retrieve_dem
  rw [if_neg (by simp [h])]

/-! ### The claims -/

/-- C1: for every parameter mapping missing at least one of the seven
required keys, `retrieve_dem` fails with the validation error whose message
lists the missing key names, and the transport is invoked zero times (the
second component is `0`, for every transport). -/
theorem claim_C1_missing_key_validation (ps : Params) (t : ByteStr → HttpResult)
    (h : ∃ k ∈ required_params, k ∉ paramKeys ps) :
    retrieve_dem ps t =
      (.error (.valueError (missingMessage (missing_params ps))), 0) :=
  retrieve_dem_missing ps t ((missing_params_ne_nil_iff ps).mpr h)

/-- Witness for C1: a mapping with only `west` and `demtype` fails
validation without any transport call. -/
theorem claim_C1_witness :
    (∃ k ∈ required_params, k ∉ paramKeys partialParams) ∧
    retrieve_dem partialParams (fun _ => HttpResult.success [0, 1, 2]) =
      (.error (.valueError (missingMessage (missing_params partialParams))), 0) :=
  ⟨by decide, claim_C1_missing_key_validation partialParams _ (by decide)⟩

/-- C2: for a mapping with all seven required keys, the URL is the fixed
base endpoint followed by `?` (byte 63) and the query string; decoding the
query string yields exactly the pairs of the mapping (order-independent set
equality, stated as a membership equivalence); and the transport is called
on exactly that URL (an echoing transport returns it as the body). -/
theorem claim_C2_url_query (ps : Params) (kv : ByteStr × ByteStr)
    (hreq : missing_params ps = []) (hv : validParams ps) :
    (∃ rest, buildUrl ps = base_url ++ 63 :: rest)
    ∧ (kv ∈ decodeQuery (urlencode ps) ↔ kv ∈ ps)
    ∧ retrieve_dem ps (fun u => .success u) = (.ok (buildUrl ps), 1) := by
  refine ⟨⟨urlencode ps, rfl⟩, ?_, ?_⟩
  · rw [decodeQuery_urlencode ps (ne_nil_of_no_missing ps hreq) hv]
  · rw [retrieve_dem_present _ _ hreq]

/-- Witness for C2 at the spec's example mapping and its first pair. -/
theorem claim_C2_witness :
    (∃ rest, buildUrl exampleParams = base_url ++ 63 :: rest)
    ∧ ((ascii "demtype", ascii "SRTMGL3") ∈ decodeQuery (urlencode exampleParams) ↔
        (ascii "demtype", ascii "SRTMGL3") ∈ exampleParams)
    ∧ retrieve_dem exampleParams (fun u => .success u) =
        (.ok (buildUrl exampleParams), 1) :=
  claim_C2_url_query exampleParams _ (by decide) (by decide)

/-- C3: on a successful transport response, `retrieve_dem` returns exactly
the response body, unchanged. -/
theorem claim_C3_success_body (ps : Params) (t : ByteStr → HttpResult) (body : ByteStr)
    (hreq : missing_params ps = []) (ht : t (buildUrl ps) = .success body) :
    retrieve_dem ps t = (.ok body, 1) := by
  rw [retrieve_dem_present _ _ hreq, ht]

/-- Witness for C3: a mocked transport returning the bytes of
`RIFF...tiff-bytes...` yields exactly those bytes. -/
theorem claim_C3_witness :
    retrieve_dem exampleParams (fun _ => HttpResult.success (ascii "RIFF...tiff-bytes...")) =
      (.ok (ascii "RIFF...tiff-bytes..."), 1) :=
  claim_C3_success_body exampleParams _ (ascii "RIFF...tiff-bytes...") (by decide) rfl

/-- C4: on an HTTP-level error response, `retrieve_dem` fails with the
re-raised HTTP error carrying the request URL, the status code and the
formatted human-readable reason. -/
theorem claim_C4_http_error (ps : Params) (t : ByteStr → HttpResult)
    (code : Nat) (reason : ByteStr)
    (hreq : missing_params ps = []) (ht : t (buildUrl ps) = .httpError code reason) :
    retrieve_dem ps t =
      (.error (.httpError (buildUrl ps) code (httpErrorMessage code reason)), 1) := by
  rw [retrieve_dem_present _ _ hreq, ht]

/-- Witness for C4: a mocked status-500 response yields the error carrying
status code 500. -/
theorem claim_C4_witness :
    retrieve_dem exampleParams
        (fun _ => HttpResult.httpError 500 (ascii "Internal Server Error")) =
      (.error (.httpError (buildUrl exampleParams) 500
        (httpErrorMessage 500 (ascii "Internal Server Error"))), 1) :=
  claim_C4_http_error exampleParams _ 500 (ascii "Internal Server Error") (by decide) rfl

/-- C5: on a transport-level failure (the `urlError` outcome, covering DNS
failure, refused connection, timeout expiry and TLS failure),
`retrieve_dem` fails with the network error carrying the underlying reason
and does not return a value. -/
theorem claim_C5_network_error (ps : Params) (t : ByteStr → HttpResult)
    (reason body : ByteStr)
    (hreq : missing_params ps = []) (ht : t (buildUrl ps) = .urlError reason) :
    retrieve_dem ps t = (.error (.urlError (networkErrorMessage reason)), 1)
    ∧ (retrieve_dem ps t).1 ≠ .ok body := by
  rw [retrieve_dem_present _ _ hreq, ht]
  exact ⟨rfl, by simp⟩

/-- Witness for C5: a mocked timed-out transport yields the network error
and no return value. -/
theorem claim_C5_witness :
    retrieve_dem exampleParams (fun _ => HttpResult.urlError (ascii "timed out")) =
      (.error (.urlError (networkErrorMessage (ascii "timed out"))), 1)
    ∧ (retrieve_dem exampleParams (fun _ => HttpResult.urlError (ascii "timed out"))).1 ≠
        .ok (ascii "RIFF") :=
  claim_C5_network_error exampleParams _ (ascii "timed out") (ascii "RIFF") (by decide) rfl

/-- C6: round trip — for a mapping with all seven required keys (made of
real bytes), URL-encoding the mapping and then decoding the query string
reproduces the original key/value mapping exactly. -/
theorem claim_C6_roundtrip (ps : Params)
    (hreq : missing_params ps = []) (hv : validParams ps) :
    decodeQuery (urlencode ps) = ps :=
  decodeQuery_urlencode ps (ne_nil_of_no_missing ps hreq) hv

/-- Witness for C6 at the spec's example mapping. -/
theorem claim_C6_witness :
    decodeQuery (urlencode exampleParams) = exampleParams :=
  claim_C6_roundtrip exampleParams (by decide) (by decide)

/-- C7 is refuted: two mappings with the same set of key/value pairs
(a permutation — here a reversal) produce different URLs, because
`urlencode` serializes a Python dict in its insertion order. -/
theorem claim_C7_counterexample :
    exampleParams.reverse.Perm exampleParams
    ∧ buildUrl exampleParams.reverse ≠ buildUrl exampleParams :=
  ⟨List.reverse_perm exampleParams, by decide⟩

/-- C7 amended: URL construction is deterministic in the mapping as an
ordered sequence of pairs; two mappings with the same set of pairs may
produce different URL strings when their insertion orders differ, but the
query strings they produce decode to the same set of key/value pairs. -/
theorem claim_C7_amended (p1 p2 : Params)
    (h1 : missing_params p1 = []) (h2 : missing_params p2 = [])
    (hv1 : validParams p1) (hv2 : validParams p2)
    (hmem : ∀ kv, kv ∈ p1 ↔ kv ∈ p2) (kv : ByteStr × ByteStr) :
    (kv ∈ decodeQuery (urlencode p1) ↔ kv ∈ decodeQuery (urlencode p2)) := by
  rw [decodeQuery_urlencode p1 (ne_nil_of_no_missing p1 h1) hv1,
      decodeQuery_urlencode p2 (ne_nil_of_no_missing p2 h2) hv2]
  exact hmem kv

/-- Witness for the amended C7 at the example mapping and its reversal. -/
theorem claim_C7_amended_witness :
    ((ascii "API_Key", ascii "demoapikeyot2022") ∈ decodeQuery (urlencode exampleParams) ↔
      (ascii "API_Key", ascii "demoapikeyot2022") ∈
        decodeQuery (urlencode exampleParams.reverse)) :=
  claim_C7_amended exampleParams exampleParams.reverse (by decide) (by decide)
    (by decide) (by decide) (fun kv => List.mem_reverse.symm) _

/-- C8: validation fails iff a required key is absent from the mapping's
keys, and the validation outcome depends only on the keys — mappings with
the same keys (whatever their values) have the same missing-key list. -/
theorem claim_C8_validation_iff (ps ps' : Params) (t : ByteStr → HttpResult)
    (hkeys : paramKeys ps' = paramKeys ps) :
    ((retrieve_dem ps t).1 =
        .error (.valueError (missingMessage (missing_params ps)))
      ↔ ∃ k ∈ required_params, k ∉ paramKeys ps)
    ∧ missing_params ps' = missing_params ps := by
  constructor
  · constructor
    · intro hres
      by_contra hex
      have h : missing_params ps = [] := by
        by_contra hne
        exact hex ((missing_params_ne_nil_iff ps).mp hne)
      rw [retrieve_dem_present _ _ h] at hres
      cases ht : t (buildUrl ps) <;> rw [ht] at hres <;> simp at hres
    · intro hex
      rw [retrieve_dem_missing ps t ((missing_params_ne_nil_iff ps).mpr hex)]
  · unfold missing_params
    rw [hkeys]

/-- Witness for C8: the example mapping and a same-keys mapping with
completely different values validate identically. -/
theorem claim_C8_witness :
    ((retrieve_dem exampleParams (fun _ => HttpResult.success [])).1 =
        .error (.valueError (missingMessage (missing_params exampleParams)))
      ↔ ∃ k ∈ required_params, k ∉ paramKeys exampleParams)
    ∧ missing_params exampleParamsAltVals = missing_params exampleParams :=
  claim_C8_validation_iff exampleParams exampleParamsAltVals _ (by decide)

/-- C9 (implicit): the missing-key names in the validation message are the
required keys filtered in their fixed canonical order (`demtype`, `south`,
`north`, `west`, `east`, `outputFormat`, `API_Key`), joined by `", "` —
not in the order of the caller's mapping. -/
theorem claim_C9_missing_order (ps : Params) (t : ByteStr → HttpResult)
    (h : missing_params ps ≠ []) :
    (retrieve_dem ps t).1 = .error (.valueError (
      ascii "Missing required parameters: " ++
      List.intercalate (ascii ", ")
        (required_params.filter (fun p => decide (p ∉ paramKeys ps))))) := by
  rw [retrieve_dem_missing ps t h]
  rfl

/-- Witness for C9: `partialParams` lists `west` before `demtype`, yet the
message is built from the canonical required order. -/
theorem claim_C9_witness :
    (retrieve_dem partialParams (fun _ => HttpResult.success [])).1 =
      .error (.valueError (
        ascii "Missing required parameters: " ++
        List.intercalate (ascii ", ")
          (required_params.filter (fun p => decide (p ∉ paramKeys partialParams))))) :=
  claim_C9_missing_order partialParams _ (by decide)

/-- C10 (implicit): a mapping with all seven required keys plus arbitrary
extra keys passes validation (the transport is invoked), and every pair of
the mapping — extra pairs included — is serialized into the query string of
the request URL (it appears in the decoded query). -/
theorem claim_C10_extra_keys (ps : Params) (t : ByteStr → HttpResult)
    (kv : ByteStr × ByteStr) (hreq : missing_params ps = [])
    (hv : validParams ps) (hkv : kv ∈ ps) :
    (retrieve_dem ps t).2 = 1 ∧ kv ∈ decodeQuery (urlencode ps) := by
  constructor
  · rw [retrieve_dem_present _ _ hreq]
    cases ht : t (buildUrl ps) <;> rfl
  · rw [decodeQuery_urlencode ps (ne_nil_of_no_missing ps hreq) hv]
    exact hkv

/-- Witness for C10: the example mapping extended with an extra key passes
validation and the extra pair lands in the decoded query string. -/
theorem claim_C10_witness :
    (retrieve_dem exampleParamsExtra (fun _ => HttpResult.success [])).2 = 1
    ∧ (ascii "extra", ascii "1") ∈ decodeQuery (urlencode exampleParamsExtra) :=
  claim_C10_extra_keys exampleParamsExtra _ (ascii "extra", ascii "1")
    (by decide) (by decide) (by decide)

end CityDems
